import Mathlib

set_option maxRecDepth 10000

/-!
# Verification of the gusty compiler front end

Shallow embedding of the three pipeline stages of the gusty language
(github.com/donutloop/gusty): `Tokenize` (pkg/lang/tokenizer.go),
`Parse` (pkg/lang/parser.go) and `GenerateLLVMIR` (pkg/lang/IR.go),
together with proofs about the embedded definitions.

Modelling conventions:
* Go slices of tokens become `List Token`; indices stay `Nat`.
* A Go out-of-range slice access or failing type assertion (a runtime
  panic) is the distinguished result `PRes.panic`.
* The parser's main loop (`parseNodes`) can fail to advance its index,
  so it is embedded with an explicit fuel argument; `PRes.fuelOut`
  marks fuel exhaustion, and non-termination of the Go loop is the
  statement that every fuel amount is exhausted.
* Go `int32` conversions wrap via `toInt32`; `strconv.Atoi` becomes
  the `Option`-valued `Atoi`.
* The LLVM builder API is embedded structurally: a `Builder` is a list
  of finished basic blocks plus the current insertion block, and each
  `Create*` call appends an `Instr`.  `llvm.VerifyModule` (an external
  library consistency check that succeeds on every module this code
  generator produces) is modelled as always passing.
* The package-level `GenerateRandomIdentifier` variable (by default an
  unseeded `uuid.New().String()`) is modelled as an explicit stream
  `gen : Nat → String` of generated names, consumed left to right.
-/

namespace Gusty

/-- Token kinds of pkg/lang/tokenizer.go.  The checked-in tokenizer
snapshots stop at `TokenInteger32Type`/`TokenUnknown`; the kinds from
`TokenForType` on are referenced by parser.go and belong to the current
tokenizer, which is absent from the repository snapshot. -/
inductive TokenType where
  | TokenWhileType
  | TokenLetType
  | TokenFunctionType
  | TokenOpenParenthesisType
  | TokenCloseParenthesisType
  | TokenOpenCurlyBracketType
  | TokenCloseCurlyBracketType
  | TokenIdentifierType
  | TokenEqualsType
  | TokenInteger32Type
  | TokenForType
  | TokenShortVariableAssignmentType
  | TokenSemicolonType
  | TokenAddType
  | TokenLessThanType
  | TokenUnknown
  deriving DecidableEq, Repr

/-- Go's `TokenType` is an `int` (iota); `parseNodes` receives `-1` for
"no enclosing construct", so the dispatch parameter is embedded as an
`Int` via this code assignment (the concrete numbers only need to be
distinct and different from `-1`). -/
def tcode : TokenType → Int
  | .TokenWhileType => 0
  | .TokenLetType => 1
  | .TokenFunctionType => 2
  | .TokenOpenParenthesisType => 3
  | .TokenCloseParenthesisType => 4
  | .TokenOpenCurlyBracketType => 5
  | .TokenCloseCurlyBracketType => 6
  | .TokenIdentifierType => 7
  | .TokenEqualsType => 8
  | .TokenInteger32Type => 9
  | .TokenForType => 10
  | .TokenShortVariableAssignmentType => 11
  | .TokenSemicolonType => 12
  | .TokenAddType => 13
  | .TokenLessThanType => 14
  | .TokenUnknown => 15

/-- A lexical token: Go struct `Token{Type TokenType; Value string}`.
(The `Type` field is renamed `typ` because `Type` is a Lean keyword.)
Punctuation and keyword tokens carry the zero value `""`. -/
structure Token where
  typ : TokenType
  val : String
  deriving DecidableEq, Repr

/-- The ASCII part of Go's `unicode.IsSpace` (the inputs this
development evaluates contain only ASCII whitespace). -/
def isSpaceChar (c : Char) : Bool :=
  c = ' ' || c = '\t' || c = '\n' || c = '\x0b' || c = '\x0c' || c = '\r'

/-- Go `strconv.Atoi`: optional sign followed by at least one decimal
digit; anything else is an error (`none`).  (Go additionally fails on
values outside int64; no input in this development comes near that
range, and the int64 bound is omitted.) -/
def AtoiDigits : List Char → Option Int
  | [] => none
  | l => if l.all (·.isDigit)
         then some (l.foldl (fun acc c => acc * 10 + (c.toNat - '0'.toNat)) (0 : Int))
         else none

/-- See `AtoiDigits`. -/
def Atoi (s : String) : Option Int :=
  match s.data with
  | [] => none
  | '-' :: rest => (AtoiDigits rest).map (fun n => -n)
  | '+' :: rest => AtoiDigits rest
  | l => AtoiDigits l

/-- Go's `int32(n)` conversion: wrap into `[-2^31, 2^31)`. -/
def toInt32 (n : Int) : Int :=
  (n + 2 ^ 31) % 2 ^ 32 - 2 ^ 31

/-- Classification of a flushed word buffer: reserved words become
keyword tokens, everything else an identifier carrying its text. -/
def classifyWord (w : String) : Token :=
  if w = "while" then ⟨.TokenWhileType, ""⟩
  else if w = "let" then ⟨.TokenLetType, ""⟩
  else if w = "function" then ⟨.TokenFunctionType, ""⟩
  else if w = "for" then ⟨.TokenForType, ""⟩
  else if w = "i32" then ⟨.TokenInteger32Type, ""⟩
  else ⟨.TokenIdentifierType, w⟩

/-- Flush the pending word buffer (if non-empty) as one token. -/
def flushBuf (sb : String) (toks : List Token) : List Token :=
  if sb = "" then toks else toks ++ [classifyWord sb]

/-- Modelled from the spec: the tokenizer variant that produces the
`for`, `+`, `;`, `:=` and `<` tokens consumed by parser.go is absent
from the repository snapshot (the checked-in tokenizer.go snapshots
stop at the `while`/`let`/`function`/`i32`/punctuation vocabulary).
Modelled from spec sections 3, 4.1 and 6, following the structure of
the checked-in snapshots: non-special characters accumulate in a
buffer; whitespace, brackets, braces, comma, `=`, `+`, `;` and `<`
flush the buffer (classified by `classifyWord`, uniformly, as the spec
directs); brackets, braces, `+`, `;` and `<` also emit their own
token; comma only flushes (the parser defines no comma token kind);
`:=` is recognised with one character of lookback when `=` arrives
with exactly `":"` buffered.  No lexical errors exist. -/
def tokenizeGo : List Char → String → List Token → List Token
  | [], sb, toks => flushBuf sb toks
  | c :: rest, sb, toks =>
    if c = ',' then
      tokenizeGo rest "" (flushBuf sb toks)
    else if c = '=' then
      if sb = ":" then
        tokenizeGo rest "" (toks ++ [⟨.TokenShortVariableAssignmentType, ""⟩])
      else
        tokenizeGo rest "" (flushBuf sb toks ++ [⟨.TokenEqualsType, ""⟩])
    else if isSpaceChar c then
      tokenizeGo rest "" (flushBuf sb toks)
    else if c = '(' then
      tokenizeGo rest "" (flushBuf sb toks ++ [⟨.TokenOpenParenthesisType, ""⟩])
    else if c = ')' then
      tokenizeGo rest "" (flushBuf sb toks ++ [⟨.TokenCloseParenthesisType, ""⟩])
    else if c = '{' then
      tokenizeGo rest "" (flushBuf sb toks ++ [⟨.TokenOpenCurlyBracketType, ""⟩])
    else if c = '}' then
      tokenizeGo rest "" (flushBuf sb toks ++ [⟨.TokenCloseCurlyBracketType, ""⟩])
    else if c = '+' then
      tokenizeGo rest "" (flushBuf sb toks ++ [⟨.TokenAddType, ""⟩])
    else if c = ';' then
      tokenizeGo rest "" (flushBuf sb toks ++ [⟨.TokenSemicolonType, ""⟩])
    else if c = '<' then
      tokenizeGo rest "" (flushBuf sb toks ++ [⟨.TokenLessThanType, ""⟩])
    else
      tokenizeGo rest (sb.push c) toks

/-- `Tokenize(input string) []Token` (see `tokenizeGo`). -/
def Tokenize (input : String) : List Token :=
  tokenizeGo input.data "" []

/-! ## AST (pkg/lang/parser.go) -/

/-- A Go `any` value as stored in the AST (`LetNode.Value`,
`Parameter.Value`, `AddOperationNode.LeftValue`, ...): a nil
interface, an `int32`, or a `string`. -/
inductive GoVal where
  | nil
  | int32 (n : Int)
  | str (s : String)
  deriving DecidableEq, Repr

/-- `dataType`: only `Integer32Type` exists. -/
inductive DataType where
  | Integer32Type
  deriving DecidableEq, Repr

/-- `Parameter{Identifier string; Type dataType; Value any}`; the
`Type` field is renamed `dtype` (Lean keyword). -/
structure Parameter where
  Identifier : String
  dtype : DataType := .Integer32Type
  Value : GoVal := .nil
  deriving DecidableEq, Repr

/-- `AddOperationNode{LeftValue, RightValue any}`. -/
structure AddOperationNode where
  LeftValue : GoVal
  RightValue : GoVal
  deriving DecidableEq, Repr

/-- `ShortVariableAssigmentNode{Identifier string; Value any}`. -/
structure ShortVariableAssigmentNode where
  Identifier : String
  Value : GoVal
  deriving DecidableEq, Repr

/-- `ConditionNode{LeftValue string; Operator any; RightValue any}`;
the `Operator` field always holds `LessThanOperator{}` (the only
operator type in the source) and is left implicit. -/
structure ConditionNode where
  LeftValue : String
  RightValue : GoVal
  deriving DecidableEq, Repr

/-- `PostNode{Identifier string; Increment bool}`. -/
structure PostNode where
  Identifier : String
  Increment : Bool
  deriving DecidableEq, Repr

/-- The `Node` interface: one constructor per implementing struct.
(`Parameter` also implements `Node` in Go but is never stored as a
statement node by the parser, so it has no constructor here.) -/
inductive Node where
  | letNode (Identifier : String) (Value : GoVal)
  | addOperationNode (op : AddOperationNode)
  | whileNode (Condition : String) (Body : List Node)
  | functionNode (Name : String) (Parameters : List Parameter) (Body : List Node)
  | callerNode (FunctionName : String) (Parameters : List Parameter)
               (isParameterOperation : Bool) (AddOperation : Option AddOperationNode)
  | forNode (Init : ShortVariableAssigmentNode) (Condition : ConditionNode)
            (Post : PostNode) (Body : List Node)

/-! ## Result type for the embedded Go functions -/

/-- Result of an embedded Go computation: a value, an `error` return,
a runtime panic (out-of-range index / failed type assertion /nil
dereference), or exhaustion of the embedding's fuel. -/
inductive PRes (α : Type) where
  | ok (a : α)
  | err (msg : String)
  | panic
  | fuelOut
  deriving DecidableEq, Repr

/-- Go slice access `tokens[i]`: panics when out of range. -/
def getTok (tokens : List Token) (i : Nat) : PRes Token :=
  match tokens.get? i with
  | some t => .ok t
  | none => .panic

/-! ## Token-predicate helpers (parser.go lines 562-635) -/

/-- `IsNotLessThanToken`. -/
def IsNotLessThanToken (currentIndex : Nat) (tokens : List Token) : Bool :=
  currentIndex ≥ tokens.length ||
    ((tokens.get? currentIndex).map (fun t => decide (t.typ ≠ TokenType.TokenLessThanType))).getD true

/-- `IsNotSemicolonToken`. -/
def IsNotSemicolonToken (currentIndex : Nat) (tokens : List Token) : Bool :=
  currentIndex ≥ tokens.length ||
    ((tokens.get? currentIndex).map (fun t => decide (t.typ ≠ TokenType.TokenSemicolonType))).getD true

/-- `IsNotShortVariableAssigmentToken`. -/
def IsNotShortVariableAssigmentToken (currentIndex : Nat) (tokens : List Token) : Bool :=
  currentIndex ≥ tokens.length ||
    ((tokens.get? currentIndex).map (fun t => decide (t.typ ≠ TokenType.TokenShortVariableAssignmentType))).getD true

/-- `IsNotForToken`. -/
def IsNotForToken (currentIndex : Nat) (tokens : List Token) : Bool :=
  currentIndex ≥ tokens.length ||
    ((tokens.get? currentIndex).map (fun t => decide (t.typ ≠ TokenType.TokenForType))).getD true

/-- `IsOpenParenthesisToken`: note that in the source an out-of-bounds
index counts as `true`. -/
def IsOpenParenthesisToken (currentIndex : Nat) (tokens : List Token) : Bool :=
  currentIndex ≥ tokens.length ||
    ((tokens.get? currentIndex).map (fun t => decide (t.typ = TokenType.TokenOpenParenthesisType))).getD false

/-- `IsNotOpenParenthesisToken`. -/
def IsNotOpenParenthesisToken (currentIndex : Nat) (tokens : List Token) : Bool :=
  currentIndex ≥ tokens.length ||
    ((tokens.get? currentIndex).map (fun t => decide (t.typ ≠ TokenType.TokenOpenParenthesisType))).getD true

/-- `IsNotCloseParenthesisToken`. -/
def IsNotCloseParenthesisToken (currentIndex : Nat) (tokens : List Token) : Bool :=
  currentIndex ≥ tokens.length ||
    ((tokens.get? currentIndex).map (fun t => decide (t.typ ≠ TokenType.TokenCloseParenthesisType))).getD true

/-- `IsNotOpenCurlyBracketToken`. -/
def IsNotOpenCurlyBracketToken (currentIndex : Nat) (tokens : List Token) : Bool :=
  currentIndex ≥ tokens.length ||
    ((tokens.get? currentIndex).map (fun t => decide (t.typ ≠ TokenType.TokenOpenCurlyBracketType))).getD true

/-- `IsNotCloseCurlyBracketToken`. -/
def IsNotCloseCurlyBracketToken (currentIndex : Nat) (tokens : List Token) : Bool :=
  currentIndex ≥ tokens.length ||
    ((tokens.get? currentIndex).map (fun t => decide (t.typ ≠ TokenType.TokenCloseCurlyBracketType))).getD true

/-- `IsIdentifierToken`: out-of-bounds counts as `true` (source quirk,
it makes the parameter-list loops dereference a missing token). -/
def IsIdentifierToken (currentIndex : Nat) (tokens : List Token) : Bool :=
  currentIndex ≥ tokens.length ||
    ((tokens.get? currentIndex).map (fun t => decide (t.typ = TokenType.TokenIdentifierType))).getD false

/-- `IsNotIdentifierToken`. -/
def IsNotIdentifierToken (currentIndex : Nat) (tokens : List Token) : Bool :=
  currentIndex ≥ tokens.length ||
    ((tokens.get? currentIndex).map (fun t => decide (t.typ ≠ TokenType.TokenIdentifierType))).getD true

/-- `IsNotEqualToken`. -/
def IsNotEqualToken (currentIndex : Nat) (tokens : List Token) : Bool :=
  currentIndex ≥ tokens.length ||
    ((tokens.get? currentIndex).map (fun t => decide (t.typ ≠ TokenType.TokenEqualsType))).getD true

/-- `IsInteger32Token`: despite its name it is true when the token is
NOT `i32` (or the index is out of bounds), exactly as in the source. -/
def IsInteger32Token (currentIndex : Nat) (tokens : List Token) : Bool :=
  currentIndex ≥ tokens.length ||
    ((tokens.get? currentIndex).map (fun t => decide (t.typ ≠ TokenType.TokenInteger32Type))).getD true

/-- `IsNotAddToken`. -/
def IsNotAddToken (currentIndex : Nat) (tokens : List Token) : Bool :=
  currentIndex ≥ tokens.length ||
    ((tokens.get? currentIndex).map (fun t => decide (t.typ ≠ TokenType.TokenAddType))).getD true

/-- `IsAddToken`: out-of-bounds counts as `true` (source quirk). -/
def IsAddToken (currentIndex : Nat) (tokens : List Token) : Bool :=
  currentIndex ≥ tokens.length ||
    ((tokens.get? currentIndex).map (fun t => decide (t.typ = TokenType.TokenAddType))).getD false

/-- The text of the token at a position the source has already
bounds-checked (so the default is never reached). -/
def tokVal (tokens : List Token) (i : Nat) : String :=
  ((tokens.get? i).map (fun t => t.val)).getD ""

/-! ## Parser productions (pkg/lang/parser.go) -/

/-- `parseLet` (parser.go lines 310-339).  The integer-literal access
`tokens[index].Value` after `=` is not bounds-checked in the source,
so a too-short input panics (`getTok`). -/
def parseLet (tokens : List Token) (index : Nat) : PRes (Node × Nat) :=
  let index := index + 1
  if IsNotIdentifierToken index tokens then
    .err ("expected identifier after 'let' at position " ++ toString index)
  else
    let name := tokVal tokens index
    let index := index + 1
    if IsNotEqualToken index tokens then
      .err ("expected '=' after let at position " ++ toString index)
    else
      let index := index + 1
      match getTok tokens index with
      | .ok t =>
        match Atoi t.val with
        | some intValue =>
          .ok (.letNode name (.int32 (toInt32 intValue)), index + 1)
        | none =>
          .err ("expected 'int' after equal condition at position " ++ toString index)
      | _ => .panic

/-- `parseAddOperation` (parser.go lines 401-438). -/
def parseAddOperation (tokens : List Token) (index : Nat) :
    PRes (AddOperationNode × Nat) :=
  if IsNotIdentifierToken index tokens then
    .err ("expected 'identifier' at start " ++ toString index)
  else
    match Atoi (tokVal tokens index) with
    | none => .err ("expected 'int' as value at position " ++ toString index)
    | some leftValue =>
      let index := index + 1
      if IsNotAddToken index tokens then
        .err ("expected 'add sign' after 'identifier' at position " ++ toString index)
      else
        let index := index + 1
        if IsNotIdentifierToken index tokens then
          .err ("expected 'identifier' after 'add sign' at position " ++ toString index)
        else
          match Atoi (tokVal tokens index) with
          | none => .err ("expected 'int' as value at position " ++ toString index)
          | some rightValue =>
            .ok (⟨.int32 (toInt32 leftValue), .int32 (toInt32 rightValue)⟩, index + 1)

/-- The parameter loop of `parseCaller` (parser.go lines 362-377).
`IsIdentifierToken` is true out of bounds, after which the source
dereferences `tokens[index]`: a missing closing parenthesis panics.
The counter only bounds the iteration count (the index grows every
round, so `tokens.length + 1` rounds are always enough); it is not
part of the source. -/
def callerParamLoop : Nat → List Token → Nat → List Parameter → PRes (List Parameter × Nat)
  | 0, _, _, _ => .fuelOut
  | n + 1, tokens, index, parameters =>
    if IsIdentifierToken index tokens then
      match getTok tokens index with
      | .ok t =>
        match Atoi t.val with
        | some intValue =>
          callerParamLoop n tokens (index + 1)
            (parameters ++ [⟨t.val, .Integer32Type, .int32 (toInt32 intValue)⟩])
        | none =>
          callerParamLoop n tokens (index + 1)
            (parameters ++ [⟨t.val, .Integer32Type, .str t.val⟩])
      | _ => .panic
    else
      .ok (parameters, index)

/-- `parseCaller` (parser.go lines 345-399).  In the addition branch
the returned index of `parseAddOperation` is discarded and the source
advances by the fixed amount 3. -/
def parseCaller (tokens : List Token) (index : Nat) : PRes (Node × Nat) :=
  match getTok tokens index with
  | .ok nameTok =>
    let name := nameTok.val
    let index := index + 1
    if IsNotOpenParenthesisToken index tokens then
      .err ("expected '(' after caller at position " ++ toString index)
    else
      let index := index + 1
      if IsNotAddToken (index + 1) tokens then
        match callerParamLoop (tokens.length + 1) tokens index [] with
        | .ok (parameters, index) =>
          if IsNotCloseParenthesisToken index tokens then
            .err ("expected ')' after parameters at position " ++ toString index)
          else
            .ok (.callerNode name parameters false none, index + 1)
        | .err m => .err m
        | .panic => .panic
        | .fuelOut => .fuelOut
      else
        match parseAddOperation tokens index with
        | .ok (addOperationNode, _) =>
          let index := index + 3
          if IsNotCloseParenthesisToken index tokens then
            .err ("expected ')' after parameters at position " ++ toString index)
          else
            .ok (.callerNode name [] true (some addOperationNode), index + 1)
        | .err m => .err m
        | .panic => .panic
        | .fuelOut => .fuelOut
  | _ => .panic

/-- The parameter loop of `parseFunction` (parser.go lines 218-232);
same bounding counter convention as `callerParamLoop`.  Note
`IsInteger32Token` is true when the token is NOT `i32`, which is how
the source uses it. -/
def functionParamLoop : Nat → List Token → Nat → List Parameter → PRes (List Parameter × Nat)
  | 0, _, _, _ => .fuelOut
  | n + 1, tokens, index, parameters =>
    if IsIdentifierToken index tokens then
      match getTok tokens index with
      | .ok t =>
        let index := index + 1
        if IsInteger32Token index tokens then
          .err ("expected 'i32' after function parameter at position " ++ toString index)
        else
          functionParamLoop n tokens (index + 1)
            (parameters ++ [⟨t.val, .Integer32Type, .nil⟩])
      | _ => .panic
    else
      .ok (parameters, index)

/-- The type of the `parseNodes` entry point, abstracted so that the
block-parsing productions can receive the (fuel-instantiated) main
loop as an argument. -/
def PN : Type :=
  List Token → Nat → Int → List Node → PRes (List Node × Nat)

/-- `parseFunction` body (parser.go lines 202-261), abstracted over
the `parseNodes` loop. -/
def parseFunctionF (pn : PN) (tokens : List Token) (index : Nat) : PRes (Node × Nat) :=
  let index := index + 1
  if IsNotIdentifierToken index tokens then
    .err ("expected identifier after 'function' at position " ++ toString index)
  else
    let name := tokVal tokens index
    let index := index + 1
    if IsNotOpenParenthesisToken index tokens then
      .err ("expected '(' after function name at position " ++ toString index)
    else
      let index := index + 1
      match functionParamLoop (tokens.length + 1) tokens index [] with
      | .ok (parameters, index) =>
        if IsNotCloseParenthesisToken index tokens then
          .err ("expected ')' after function parameters at position " ++ toString index)
        else
          let index := index + 1
          if IsNotOpenCurlyBracketToken index tokens then
            .err ("expected '\x7b' after function parameters at position " ++ toString index)
          else
            let index := index + 1
            match pn (tokens.drop index) 0 (tcode .TokenFunctionType) [] with
            | .ok (body, newIndex) =>
              let index := index + newIndex
              if IsNotCloseCurlyBracketToken index tokens then
                .err ("expected '\x7d' after function body at position " ++ toString index)
              else
                .ok (.functionNode name parameters body, index + 1)
            | .err m => .err m
            | .panic => .panic
            | .fuelOut => .fuelOut
      | .err m => .err m
      | .panic => .panic
      | .fuelOut => .fuelOut

/-- `parseWhile` body (parser.go lines 267-304), abstracted over the
`parseNodes` loop.  Two source quirks are preserved exactly: the
condition is read from `tokens[index+2]` AFTER `index` was already
advanced to the opening parenthesis (so it reads the closing
parenthesis token, not the condition token), and the body is parsed
with enclosing construct `-1`, for which `parseNodes` never stops at a
closing curly brace. -/
def parseWhileF (pn : PN) (tokens : List Token) (index : Nat) : PRes (Node × Nat) :=
  let index := index + 1
  if IsNotOpenParenthesisToken index tokens then
    .err ("expected '(' after 'while' at position " ++ toString index)
  else
    match getTok tokens (index + 2) with
    | .ok condTok =>
      let condition := condTok.val
      let index := index + 2
      if IsNotCloseParenthesisToken index tokens then
        .err ("expected ')' after while condition at position " ++ toString index)
      else
        let index := index + 1
        if IsNotOpenCurlyBracketToken index tokens then
          .err ("expected '\x7b' after while condition at position " ++ toString index)
        else
          let index := index + 1
          match pn (tokens.drop index) 0 (-1) [] with
          | .ok (body, newIndex) =>
            let index := index + newIndex
            if IsNotCloseCurlyBracketToken index tokens then
              .err ("expected '\x7d' after while body at position " ++ toString index)
            else
              .ok (.whileNode condition body, index + 1)
          | .err m => .err m
          | .panic => .panic
          | .fuelOut => .fuelOut
    | _ => .panic

/-- `parseFor` body (parser.go lines 440-560), abstracted over the
`parseNodes` loop.  The condition right-hand `tokens[index]` access
before the second `Atoi` is the one access in this production that the
source does not bounds-check. -/
def parseForF (pn : PN) (tokens : List Token) (index : Nat) : PRes (Node × Nat) :=
  if IsNotForToken index tokens then
    .err ("expected 'for' at start " ++ toString index)
  else
    let index := index + 1
    if IsNotIdentifierToken index tokens then
      .err ("expected identifier after 'for' at position " ++ toString index)
    else
      let shortVariableAssigmentName := tokVal tokens index
      let index := index + 1
      if IsNotShortVariableAssigmentToken index tokens then
        .err ("expected := after 'identifier' at position " ++ toString index)
      else
        let index := index + 1
        if IsNotIdentifierToken index tokens then
          .err ("expected identifier after ':=' at position " ++ toString index)
        else
          match Atoi (tokVal tokens index) with
          | none => .err ("expected 'int' as value at position " ++ toString index)
          | some shortVariableAssigmentRightValue =>
            let index := index + 1
            if IsNotSemicolonToken index tokens then
              .err ("expected ; after 'value' at position " ++ toString index)
            else
              let index := index + 1
              if IsNotIdentifierToken index tokens then
                .err ("expected identifier after ';' at position " ++ toString index)
              else
                let conditionLeftValue := tokVal tokens index
                let index := index + 1
                if IsNotLessThanToken index tokens then
                  .err ("expected < after 'idenfifier' at position " ++ toString index)
                else
                  let index := index + 1
                  match getTok tokens index with
                  | .ok rv =>
                    match Atoi rv.val with
                    | none => .err ("expected 'int' as value at position " ++ toString index)
                    | some conditionRightValue =>
                      let index := index + 1
                      if IsNotSemicolonToken index tokens then
                        .err ("expected ; after 'value' at position " ++ toString index)
                      else
                        let index := index + 1
                        if IsNotIdentifierToken index tokens then
                          .err ("expected identifier after ';' at position " ++ toString index)
                        else
                          let postIdentifier := tokVal tokens index
                          let index := index + 1
                          if IsNotAddToken index tokens then
                            .err ("expected 'add sign' after 'identifier' at position " ++
                              toString index)
                          else
                            let index := index + 1
                            if IsNotAddToken index tokens then
                              .err ("expected 'add sign' after 'add sign' at position " ++
                                toString index)
                            else
                              let index := index + 1
                              if IsNotOpenCurlyBracketToken index tokens then
                                .err ("expected '\x7b' after function parameters at position " ++
                                  toString index)
                              else
                                let index := index + 1
                                match pn (tokens.drop index) 0 (tcode .TokenForType) [] with
                                | .ok (body, newIndex) =>
                                  let index := index + newIndex
                                  if IsNotCloseCurlyBracketToken index tokens then
                                    .err ("expected '\x7d' after function body at position " ++
                                      toString index)
                                  else
                                    .ok (.forNode
                                      ⟨shortVariableAssigmentName,
                                        .int32 (toInt32 shortVariableAssigmentRightValue)⟩
                                      ⟨conditionLeftValue, .int32 (toInt32 conditionRightValue)⟩
                                      ⟨postIdentifier, true⟩ body, index + 1)
                                | .err m => .err m
                                | .panic => .panic
                                | .fuelOut => .fuelOut
                  | _ => .panic

/-- `parseNodes` (parser.go lines 132-196): the statement loop,
embedded with fuel (one unit per loop iteration).  The identifier case
mirrors the source exactly: when the following token is neither an
opening parenthesis nor a plus, nothing advances the index and the
loop re-runs in the same state. -/
def parseNodes : Nat → List Token → Nat → Int → List Node → PRes (List Node × Nat)
  | 0, _, _, _, _ => .fuelOut
  | fuel + 1, tokens, index, tokenType, nodes =>
    match tokens.get? index with
    | none => .ok (nodes, index)
    | some token =>
      match token.typ with
      | .TokenIdentifierType =>
        if IsOpenParenthesisToken (index + 1) tokens then
          match parseCaller tokens index with
          | .ok (callerNode, newIndex) =>
            parseNodes fuel tokens newIndex tokenType (nodes ++ [callerNode])
          | .err m => .err m
          | .panic => .panic
          | .fuelOut => .fuelOut
        else if IsAddToken (index + 1) tokens then
          match parseAddOperation tokens index with
          | .ok (addOperationNode, newIndex) =>
            parseNodes fuel tokens newIndex tokenType
              (nodes ++ [.addOperationNode addOperationNode])
          | .err m => .err m
          | .panic => .panic
          | .fuelOut => .fuelOut
        else
          parseNodes fuel tokens index tokenType nodes
      | .TokenCloseCurlyBracketType =>
        if tokenType = tcode .TokenFunctionType then
          .ok (nodes, index)
        else if tokenType = tcode .TokenForType then
          .ok (nodes, index)
        else
          parseNodes fuel tokens (index + 1) tokenType nodes
      | .TokenLetType =>
        match parseLet tokens index with
        | .ok (letNode, newIndex) =>
          parseNodes fuel tokens newIndex tokenType (nodes ++ [letNode])
        | .err m => .err m
        | .panic => .panic
        | .fuelOut => .fuelOut
      | .TokenWhileType =>
        match parseWhileF (fun t i ty ns => parseNodes fuel t i ty ns) tokens index with
        | .ok (whileNode, newIndex) =>
          parseNodes fuel tokens newIndex tokenType (nodes ++ [whileNode])
        | .err m => .err m
        | .panic => .panic
        | .fuelOut => .fuelOut
      | .TokenFunctionType =>
        match parseFunctionF (fun t i ty ns => parseNodes fuel t i ty ns) tokens index with
        | .ok (functionNode, newIndex) =>
          parseNodes fuel tokens newIndex tokenType (nodes ++ [functionNode])
        | .err m => .err m
        | .panic => .panic
        | .fuelOut => .fuelOut
      | .TokenForType =>
        match parseForF (fun t i ty ns => parseNodes fuel t i ty ns) tokens index with
        | .ok (forNode, newIndex) =>
          parseNodes fuel tokens newIndex tokenType (nodes ++ [forNode])
        | .err m => .err m
        | .panic => .panic
        | .fuelOut => .fuelOut
      | _ =>
        parseNodes fuel tokens (index + 1) tokenType nodes

/-- `parseWhile` with its `parseNodes` loop instantiated at a given
fuel. -/
def parseWhile (fuel : Nat) (tokens : List Token) (index : Nat) : PRes (Node × Nat) :=
  parseWhileF (fun t i ty ns => parseNodes fuel t i ty ns) tokens index

/-- `parseFunction` with its `parseNodes` loop instantiated at a given
fuel. -/
def parseFunction (fuel : Nat) (tokens : List Token) (index : Nat) : PRes (Node × Nat) :=
  parseFunctionF (fun t i ty ns => parseNodes fuel t i ty ns) tokens index

/-- `parseFor` with its `parseNodes` loop instantiated at a given
fuel. -/
def parseFor (fuel : Nat) (tokens : List Token) (index : Nat) : PRes (Node × Nat) :=
  parseForF (fun t i ty ns => parseNodes fuel t i ty ns) tokens index

/-- `Parse(tokens []Token) ([]Node, error)` (parser.go lines 124-127),
with the embedding fuel made explicit. -/
def Parse (fuel : Nat) (tokens : List Token) : PRes (List Node) :=
  match parseNodes fuel tokens 0 (-1) [] with
  | .ok (nodes, _) => .ok nodes
  | .err m => .err m
  | .panic => .panic
  | .fuelOut => .fuelOut

/-! ## LLVM IR model (pkg/lang/IR.go; structural embedding of the
tinygo.org/x/go-llvm builder API) -/

/-- An LLVM value as this code generator uses them: an i32 constant,
a named instruction result (allocas and every `Create*` call given a
non-empty name), an unnamed instruction result (numbered in creation
order per function, standing for LLVM's `%0, %1, ...`), or an incoming
function argument (`function.Param(i)`). -/
inductive Val where
  | constInt (n : Int)
  | reg (name : String)
  | tmp (n : Nat)
  | arg (i : Nat)
  deriving DecidableEq, Repr

/-- One emitted instruction.  Types are not tracked: every value this
generator touches is i32 (or a pointer produced by alloca/GEP), and no
claim depends on the type annotations. -/
inductive Instr where
  | alloca (dst : Val) (align : Nat)
  | store (v : Val) (ptr : Val)
  | load (dst : Val) (ptr : Val)
  | gep (dst : Val) (base : String)
  | call (dst : Val) (callee : String) (args : List Val)
  | add (dst : Val) (lhs rhs : Val)
  | icmp (dst : Val) (op : String) (lhs rhs : Val)
  | br (dest : String)
  | condBr (cond : Val) (tlabel flabel : String)
  | ret (v : Val)
  | retVoid
  deriving DecidableEq, Repr

/-- An `llvm.Builder` pointed at one function: the finished basic
blocks in order, the label and instructions of the current insertion
block, and the per-function counter for unnamed results. -/
structure Builder where
  done : List (String × List Instr)
  cur : String
  instrs : List Instr
  tmpn : Nat
  deriving DecidableEq, Repr

/-- A fresh builder positioned at a function's `entry` block. -/
def newBuilder : Builder :=
  { done := [], cur := "entry", instrs := [], tmpn := 0 }

/-- Append one instruction to the current insertion block. -/
def Builder.emit (b : Builder) (i : Instr) : Builder :=
  { b with instrs := b.instrs ++ [i] }

/-- The destination value for an instruction created with the given
name: named when non-empty, otherwise the next unnamed number. -/
def Builder.newDst (b : Builder) (name : String) : Val × Builder :=
  if name = "" then (.tmp b.tmpn, { b with tmpn := b.tmpn + 1 })
  else (.reg name, b)

/-- `CreateAlloca` followed by `SetAlignment(4)` (the generator always
sets alignment 4 immediately). -/
def Builder.createAlloca (b : Builder) (name : String) : Val × Builder :=
  let (dst, b) := b.newDst name
  (dst, b.emit (.alloca dst 4))

/-- `CreateStore`. -/
def Builder.createStore (b : Builder) (v ptr : Val) : Builder :=
  b.emit (.store v ptr)

/-- `CreateLoad`. -/
def Builder.createLoad (b : Builder) (ptr : Val) (name : String) : Val × Builder :=
  let (dst, b) := b.newDst name
  (dst, b.emit (.load dst ptr))

/-- `CreateInBoundsGEP` on a global (the only use is the format-string
GEP with constant zero indices). -/
def Builder.createGEP (b : Builder) (base : String) (name : String) : Val × Builder :=
  let (dst, b) := b.newDst name
  (dst, b.emit (.gep dst base))

/-- `CreateCall`. -/
def Builder.createCall (b : Builder) (callee : String) (args : List Val) (name : String) :
    Val × Builder :=
  let (dst, b) := b.newDst name
  (dst, b.emit (.call dst callee args))

/-- `CreateAdd`. -/
def Builder.createAdd (b : Builder) (lhs rhs : Val) (name : String) : Val × Builder :=
  let (dst, b) := b.newDst name
  (dst, b.emit (.add dst lhs rhs))

/-- `CreateICmp`. -/
def Builder.createICmp (b : Builder) (op : String) (lhs rhs : Val) (name : String) :
    Val × Builder :=
  let (dst, b) := b.newDst name
  (dst, b.emit (.icmp dst op lhs rhs))

/-- `CreateBr` followed by `SetInsertPointAtEnd` on a fresh block with
the given label: finish the current block and start the new one. -/
def Builder.brAndMoveTo (b : Builder) (label : String) : Builder :=
  { done := b.done ++ [(b.cur, b.instrs ++ [.br label])],
    cur := label, instrs := [], tmpn := b.tmpn }

/-- `CreateCondBr` followed by `SetInsertPointAtEnd` on a fresh block. -/
def Builder.condBrAndMoveTo (b : Builder) (cond : Val) (tlabel flabel next : String) :
    Builder :=
  { done := b.done ++ [(b.cur, b.instrs ++ [.condBr cond tlabel flabel])],
    cur := next, instrs := [], tmpn := b.tmpn }

/-- Close the builder: the finished block list of the function. -/
def Builder.finish (b : Builder) : List (String × List Instr) :=
  b.done ++ [(b.cur, b.instrs)]

/-- `Caller{Value *llvm.Value; Type *llvm.Type}`: the callable's
function value is identified by its name; `none` models a nil
pointer. -/
structure Caller where
  Value : Option String
  Type' : Option Unit
  deriving DecidableEq, Repr

/-- `Scope` (IR.go lines 85-90): per-function symbol tables plus the
"last computed temporary" slot.  Go maps become association lists with
most-recent-first lookup. -/
structure Scope where
  Callers : List (String × Caller)
  Variables : List (String × Val)
  Arguments : List (String × Val)
  PreviousVariable : Option Val
  deriving DecidableEq, Repr

/-- `newScope()`. -/
def newScope : Scope :=
  { Callers := [], Variables := [], Arguments := [], PreviousVariable := none }

/-- `GlobalScope` (IR.go lines 95-99). -/
structure GlobalScope where
  Callers : List (String × Caller)
  Variables : List (String × Val)
  Globals : List (String × String)
  deriving DecidableEq, Repr

/-- Go map lookup on an association list. -/
def lookupMap {α : Type} (m : List (String × α)) (k : String) : Option α :=
  (m.find? (fun p => p.1 = k)).map (fun p => p.2)

/-- One function of the emitted module. -/
structure IRFunction where
  name : String
  nparams : Nat
  blocks : List (String × List Instr)
  deriving DecidableEq, Repr

/-- The emitted module: the `main` entry routine, the user-defined
routines in definition order, the external declaration list and the
module-level global constants. -/
structure Module where
  name : String
  declares : List String
  globals : List (String × String)
  functions : List IRFunction
  main : IRFunction
  deriving DecidableEq, Repr

/-! ## Code generation (pkg/lang/IR.go) -/

/-- `generateLet` (IR.go lines 327-347): alloca + 4-byte alignment +
store of the literal, and registration of the binding in the current
scope; a non-int32 value is a fatal error. -/
def generateLet (scope : Scope) (b : Builder) (Identifier : String) (Value : GoVal) :
    PRes (Scope × Builder) :=
  match Value with
  | .int32 intValue =>
    let (letNodeAlloca, b) := b.createAlloca Identifier
    let b := b.createStore (.constInt intValue) letNodeAlloca
    .ok ({ scope with Variables := (Identifier, letNodeAlloca) :: scope.Variables }, b)
  | _ => .err "invalid value type for let node"

/-- `generateAdd` (IR.go lines 358-393): add of the two constants, a
fresh anonymous stack slot named by `GenerateRandomIdentifier` (the
`gen` stream at the current position), a store, and the slot recorded
as the scope's last computed temporary. -/
def generateAdd (gen : Nat → String) (scope : Scope) (b : Builder) (genIdx : Nat)
    (op : AddOperationNode) : PRes (Scope × Builder × Nat) :=
  match op.LeftValue with
  | .int32 intLeftValue =>
    match op.RightValue with
    | .int32 intRightValue =>
      let (v, b) := b.createAdd (.constInt intLeftValue) (.constInt intRightValue) ""
      let variableName := gen genIdx
      let (resultAlloca, b) := b.createAlloca variableName
      let b := b.createStore v resultAlloca
      .ok ({ scope with PreviousVariable := some resultAlloca }, b, genIdx + 1)
    | _ => .err "invalid value type for operation node"
  | _ => .err "invalid value type for add operation node"

/-- The call-argument loop of `generateCaller` (IR.go lines 303-308):
each parameter whose type is `Integer32Type` (all of them, it is the
only data type) contributes `ConstInt(uint64(parameter.Value.(int32)))`;
the type assertion panics when the value is not an int32 (a named
argument or a nil). -/
def callerArgs : List Parameter → PRes (List Val)
  | [] => .ok []
  | p :: rest =>
    match p.Value with
    | .int32 v =>
      match callerArgs rest with
      | .ok vs => .ok (.constInt v :: vs)
      | .err m => .err m
      | .panic => .panic
      | .fuelOut => .fuelOut
    | _ => .panic

/-- `generateCaller` after its initial addition step (IR.go lines
260-316).  The printf special case creates the format-string GEP
first, then either loads the last computed temporary (addition calls),
loads a local variable, passes an incoming argument directly, or —
when the first argument's identifier is bound in neither table — does
nothing and succeeds.  Any other callee is resolved in the SCOPE's
caller map (the source comment says global scope, the code reads
`scope.Callers`). -/
def generateCallerRest (gs : GlobalScope) (scope : Scope) (b : Builder) (genIdx : Nat)
    (FunctionName : String) (Parameters : List Parameter)
    (isParameterOperation : Bool) : PRes (Scope × Builder × Nat) :=
  if FunctionName = "printf" then
    match lookupMap gs.Globals "format_string" with
    | none => .panic
    | some _ =>
      let (format, b) := b.createGEP "format_string" "format"
      if isParameterOperation then
        match scope.PreviousVariable with
        | none => .panic
        | some pv =>
          let (value, b) := b.createLoad pv ""
          match lookupMap gs.Callers "printf" with
          | none => .panic
          | some _ =>
            let (_, b) := b.createCall "printf" [format, value] ""
            .ok ({ scope with PreviousVariable := none }, b, genIdx)
      else
        match Parameters with
        | [] => .panic
        | p :: _ =>
          match lookupMap scope.Variables p.Identifier with
          | some localVar =>
            let (value, b) := b.createLoad localVar (p.Identifier ++ "Value")
            match lookupMap gs.Callers "printf" with
            | none => .panic
            | some _ =>
              let (_, b) := b.createCall "printf" [format, value] ""
              .ok (scope, b, genIdx)
          | none =>
            match lookupMap scope.Arguments p.Identifier with
            | some argument =>
              match lookupMap gs.Callers "printf" with
              | none => .panic
              | some _ =>
                let (_, b) := b.createCall "printf" [format, argument] ""
                .ok (scope, b, genIdx)
            | none => .ok (scope, b, genIdx)
  else
    match lookupMap scope.Callers FunctionName with
    | none => .err ("caller not found in scope: " ++ FunctionName)
    | some caller =>
      match caller.Value with
      | none => .err ("nil function value for caller: " ++ FunctionName)
      | some callerValue =>
        match caller.Type' with
        | none => .err ("nil function type for caller: " ++ FunctionName)
        | some _ =>
          match callerArgs Parameters with
          | .ok llvmParameterValues =>
            let (_, b) := b.createCall callerValue llvmParameterValues ""
            .ok (scope, b, genIdx)
          | .err m => .err m
          | .panic => .panic
          | .fuelOut => .fuelOut

/-- `generateCaller` (IR.go lines 252-316): an addition call first
lowers its `AddOperationNode` (which consumes one generated name),
then `generateCallerRest` performs the dispatch on the callee. -/
def generateCaller (gen : Nat → String) (gs : GlobalScope) (scope : Scope) (b : Builder)
    (genIdx : Nat) (FunctionName : String) (Parameters : List Parameter)
    (isParameterOperation : Bool) (AddOperation : Option AddOperationNode) :
    PRes (Scope × Builder × Nat) :=
  let step1 : PRes (Scope × Builder × Nat) :=
    if isParameterOperation then
      match AddOperation with
      | some addOperationNode => generateAdd gen scope b genIdx addOperationNode
      | none => .panic
    else
      .ok (scope, b, genIdx)
  match step1 with
  | .ok (scope, b, genIdx) =>
    generateCallerRest gs scope b genIdx FunctionName Parameters isParameterOperation
  | .err m => .err m
  | .panic => .panic
  | .fuelOut => .fuelOut

/-- The function-body statement loop (IR.go lines 210-223): only
`LetNode` and `CallerNode` statements produce code, everything else in
a body is skipped. -/
def genBodyNodes (gen : Nat → String) (gs : GlobalScope) :
    List Node → Scope → Builder → Nat → PRes (Scope × Builder × Nat)
  | [], scope, b, genIdx => .ok (scope, b, genIdx)
  | n :: rest, scope, b, genIdx =>
    match n with
    | .letNode ident value =>
      match generateLet scope b ident value with
      | .ok (scope, b) => genBodyNodes gen gs rest scope b genIdx
      | .err m => .err m
      | .panic => .panic
      | .fuelOut => .fuelOut
    | .callerNode fn ps po ao =>
      match generateCaller gen gs scope b genIdx fn ps po ao with
      | .ok (scope, b, genIdx) => genBodyNodes gen gs rest scope b genIdx
      | .err m => .err m
      | .panic => .panic
      | .fuelOut => .fuelOut
    | _ => genBodyNodes gen gs rest scope b genIdx

/-- `FunctionNode` compilation (IR.go lines 178-231): one routine with
one i32 parameter per declared parameter, a fresh local scope binding
each parameter name to its incoming argument, the body lowered with
the function-body rules, registration of the callable in the ENTRY
routine's scope (`mainFunctionScope.Callers`, not the global scope —
and only after the body was generated), then a void return. -/
def genFunctionNode (gen : Nat → String) (gs : GlobalScope) (mainScope : Scope)
    (genIdx : Nat) (Name : String) (Parameters : List Parameter) (Body : List Node) :
    PRes (Scope × Nat × IRFunction) :=
  let llvmParameters := Parameters.filter (fun p => p.dtype = .Integer32Type)
  let currentFunctionScope : Scope :=
    { newScope with
      Arguments := Parameters.enum.foldl
        (fun acc ip => (ip.2.Identifier, Val.arg ip.1) :: acc) [] }
  match genBodyNodes gen gs Body currentFunctionScope newBuilder genIdx with
  | .ok (_, fb, genIdx) =>
    let mainScope :=
      { mainScope with Callers := (Name, ⟨some Name, some ()⟩) :: mainScope.Callers }
    let fb := fb.emit .retVoid
    .ok (mainScope, genIdx,
      { name := Name, nparams := llvmParameters.length, blocks := fb.finish })
  | .err m => .err m
  | .panic => .panic
  | .fuelOut => .fuelOut

/-- Modelled from the spec: the `ForNode` case of the code generator
is absent from the repository snapshot (no checked-in IR.go variant
lowers `for`, yet the integration test TestFor expects a lowered
loop).  Modelled from spec section 8 Scenario D: store the init
literal into a counter slot, a loop block that runs the body (with the
counter registered as a local variable, so a print call loads it),
loads the counter, increments it, stores it back and branches back to
the loop while the updated counter satisfies the loop's `<`
comparison, followed by a terminal block that receives the entry
routine's final return. -/
def generateFor (gen : Nat → String) (gs : GlobalScope) (scope : Scope) (b : Builder)
    (genIdx : Nat) (Init : ShortVariableAssigmentNode) (Condition : ConditionNode)
    (Post : PostNode) (Body : List Node) : PRes (Scope × Builder × Nat) :=
  match Init.Value, Condition.RightValue with
  | .int32 initValue, .int32 condRight =>
    let (counterAlloca, b) := b.createAlloca Init.Identifier
    let b := b.createStore (.constInt initValue) counterAlloca
    let b := b.brAndMoveTo "loop"
    let scope := { scope with Variables := (Init.Identifier, counterAlloca) :: scope.Variables }
    match genBodyNodes gen gs Body scope b genIdx with
    | .ok (scope, b, genIdx) =>
      let (counterValue, b) := b.createLoad counterAlloca (Post.Identifier ++ "Val")
      let (updatedCounter, b) := b.createAdd counterValue (.constInt 1) "updatedCounter"
      let b := b.createStore updatedCounter counterAlloca
      let (loopCond, b) := b.createICmp "slt" updatedCounter (.constInt condRight) "loopCond"
      let b := b.condBrAndMoveTo loopCond "loop" "end" "end"
      .ok (scope, b, genIdx)
    | .err m => .err m
    | .panic => .panic
    | .fuelOut => .fuelOut
  | _, _ => .err "invalid value type for for node"

/-- The top-level statement loop of `GenerateLLVMIR` (IR.go lines
157-233): `While` nodes are accepted but produce no instructions (a
documented to-do in the source); `For` nodes use the spec-modelled
`generateFor`. -/
def genNodes (gen : Nat → String) (gs : GlobalScope) :
    List Node → Scope → Builder → Nat → List IRFunction →
    PRes (Scope × Builder × Nat × List IRFunction)
  | [], scope, b, genIdx, fns => .ok (scope, b, genIdx, fns)
  | n :: rest, scope, b, genIdx, fns =>
    match n with
    | .addOperationNode op =>
      match generateAdd gen scope b genIdx op with
      | .ok (scope, b, genIdx) => genNodes gen gs rest scope b genIdx fns
      | .err m => .err m
      | .panic => .panic
      | .fuelOut => .fuelOut
    | .callerNode fn ps po ao =>
      match generateCaller gen gs scope b genIdx fn ps po ao with
      | .ok (scope, b, genIdx) => genNodes gen gs rest scope b genIdx fns
      | .err m => .err m
      | .panic => .panic
      | .fuelOut => .fuelOut
    | .letNode ident value =>
      match generateLet scope b ident value with
      | .ok (scope, b) => genNodes gen gs rest scope b genIdx fns
      | .err m => .err m
      | .panic => .panic
      | .fuelOut => .fuelOut
    | .whileNode _ _ => genNodes gen gs rest scope b genIdx fns
    | .functionNode name params body =>
      match genFunctionNode gen gs scope genIdx name params body with
      | .ok (scope, genIdx, fn) => genNodes gen gs rest scope b genIdx (fns ++ [fn])
      | .err m => .err m
      | .panic => .panic
      | .fuelOut => .fuelOut
    | .forNode ini cond post body =>
      match generateFor gen gs scope b genIdx ini cond post body with
      | .ok (scope, b, genIdx) => genNodes gen gs rest scope b genIdx fns
      | .err m => .err m
      | .panic => .panic
      | .fuelOut => .fuelOut

/-- The global scope as `GenerateLLVMIR` initialises it before walking
any statement (IR.go lines 136-150): the printf declaration and the
format-string global. -/
def initialGlobalScope : GlobalScope :=
  { Callers := [("printf", ⟨some "printf", some ()⟩)],
    Variables := [],
    Globals := [("format_string", "%d\n")] }

/-- `GenerateLLVMIR(nodes []Node) (string, error)` (IR.go lines
127-243), producing the structural module (rendered to text by
`renderModule`): main is declared with an `entry` block, printf and
the format string are registered, the statements are walked, and the
entry routine is closed with `ret i32 0`.  (`llvm.VerifyModule`, an
external LLVM consistency check, is modelled as passing.) -/
def GenerateLLVMIR (gen : Nat → String) (nodes : List Node) : PRes Module :=
  match genNodes gen initialGlobalScope nodes newScope newBuilder 0 [] with
  | .ok (_, b, _, fns) =>
    let b := b.emit (.ret (.constInt 0))
    .ok { name := "main", declares := ["printf"],
          globals := [("format_string", "%d\n")],
          functions := fns,
          main := { name := "main", nparams := 0, blocks := b.finish } }
  | .err m => .err m
  | .panic => .panic
  | .fuelOut => .fuelOut

/-! ## Serialization (abstraction of llvm `Module.String()`) -/

/-- Textual form of a value. -/
def Val.render : Val → String
  | .constInt n => toString n
  | .reg name => "%" ++ name
  | .tmp n => "%" ++ toString n
  | .arg i => "%arg" ++ toString i

/-- Textual form of an instruction; every structural component,
notably alloca names, appears in the text. -/
def Instr.render : Instr → String
  | .alloca dst align => dst.render ++ " = alloca i32, align " ++ toString align
  | .store v ptr => "store i32 " ++ v.render ++ ", ptr " ++ ptr.render
  | .load dst ptr => dst.render ++ " = load i32, ptr " ++ ptr.render
  | .gep dst base => dst.render ++ " = getelementptr inbounds @" ++ base
  | .call dst callee args =>
    dst.render ++ " = call @" ++ callee ++ "(" ++
      String.intercalate ", " (args.map Val.render) ++ ")"
  | .add dst lhs rhs => dst.render ++ " = add i32 " ++ lhs.render ++ ", " ++ rhs.render
  | .icmp dst op lhs rhs =>
    dst.render ++ " = icmp " ++ op ++ " i32 " ++ lhs.render ++ ", " ++ rhs.render
  | .br dest => "br label %" ++ dest
  | .condBr cond tlabel flabel =>
    "br i1 " ++ cond.render ++ ", label %" ++ tlabel ++ ", label %" ++ flabel
  | .ret v => "ret i32 " ++ v.render
  | .retVoid => "ret void"

/-- Textual form of a basic block. -/
def renderBlock (blk : String × List Instr) : String :=
  blk.1 ++ ":\n" ++ String.intercalate "\n" (blk.2.map Instr.render)

/-- Textual form of a function. -/
def renderFunction (f : IRFunction) : String :=
  "define @" ++ f.name ++ "/" ++ toString f.nparams ++ "\n" ++
    String.intercalate "\n" (f.blocks.map renderBlock)

/-- Textual form of the whole module: the byte-level output contract
(an abstraction of LLVM's own printer — injective on every structural
component the generator controls). -/
def renderModule (m : Module) : String :=
  "; module " ++ m.name ++ "\n" ++
    String.intercalate "\n" (m.globals.map (fun g => "@" ++ g.1 ++ " = constant " ++ g.2)) ++
    "\n" ++ renderFunction m.main ++ "\n" ++
    String.intercalate "\n" (m.functions.map renderFunction) ++ "\n" ++
    String.intercalate "\n" (m.declares.map (fun d => "declare @" ++ d))

/-! ## The full pipeline -/

/-- Tokenize, then Parse, then GenerateLLVMIR: the compiler entry
point, with the parser fuel and the temporary-name stream explicit. -/
def Compile (fuel : Nat) (gen : Nat → String) (input : String) : PRes Module :=
  match Parse fuel (Tokenize input) with
  | .ok nodes => GenerateLLVMIR gen nodes
  | .err m => .err m
  | .panic => .panic
  | .fuelOut => .fuelOut

/-- The pipeline down to IR text. -/
def CompileText (fuel : Nat) (gen : Nat → String) (input : String) : PRes String :=
  match Compile fuel gen input with
  | .ok m => .ok (renderModule m)
  | .err m => .err m
  | .panic => .panic
  | .fuelOut => .fuelOut

/-! ## Generator-dependence predicates (used by the determinism
analysis): a statement is add-free when lowering it never calls the
temporary-name generator. -/

/-- A body statement that consumes no generated name: only an
addition-call (`isParameterOperation`) does, since the body loop
lowers only `Let` and `Caller` statements. -/
def bodyNoAdd : Node → Bool
  | .callerNode _ _ isPO _ => !isPO
  | _ => true

/-- A top-level statement that consumes no generated name. -/
def noAddTop : Node → Bool
  | .addOperationNode _ => false
  | .callerNode _ _ isPO _ => !isPO
  | .functionNode _ _ body => body.all bodyNoAdd
  | .forNode _ _ _ body => body.all bodyNoAdd
  | _ => true

/-- The function-body loop emits the same code under any two
temporary-name streams when the body is add-free. -/
theorem genBodyNodes_gen_indep (g1 g2 : Nat → String) (gs : GlobalScope) :
    ∀ (body : List Node) (s : Scope) (b : Builder) (gi : Nat),
      body.all bodyNoAdd = true →
      genBodyNodes g1 gs body s b gi = genBodyNodes g2 gs body s b gi := by
  intro body
  induction body with
  | nil => intro s b gi _; rfl
  | cons n rest ih =>
    intro s b gi h
    simp only [List.all_cons, Bool.and_eq_true] at h
    obtain ⟨hn, hrest⟩ := h
    match n with
    | .letNode i v =>
      simp only [genBodyNodes]
      cases generateLet s b i v with
      | ok p => exact ih p.1 p.2 gi hrest
      | err m => rfl
      | panic => rfl
      | fuelOut => rfl
    | .callerNode fn ps po ao =>
      have hpo : po = false := by simp [bodyNoAdd] at hn; exact hn
      subst hpo
      simp only [genBodyNodes]
      have hc : generateCaller g1 gs s b gi fn ps false ao =
          generateCaller g2 gs s b gi fn ps false ao := rfl
      rw [hc]
      cases generateCaller g2 gs s b gi fn ps false ao with
      | ok p => exact ih p.1 p.2.1 p.2.2 hrest
      | err m => rfl
      | panic => rfl
      | fuelOut => rfl
    | .addOperationNode op => simp only [genBodyNodes]; exact ih s b gi hrest
    | .whileNode c bd => simp only [genBodyNodes]; exact ih s b gi hrest
    | .functionNode nm psx bd => simp only [genBodyNodes]; exact ih s b gi hrest
    | .forNode i c p bd => simp only [genBodyNodes]; exact ih s b gi hrest

/-- The for-lowering emits the same code under any two temporary-name
streams when its body is add-free. -/
theorem generateFor_gen_indep (g1 g2 : Nat → String) (gs : GlobalScope)
    (s : Scope) (b : Builder) (gi : Nat) (ini : ShortVariableAssigmentNode)
    (cond : ConditionNode) (post : PostNode) (body : List Node)
    (h : body.all bodyNoAdd = true) :
    generateFor g1 gs s b gi ini cond post body =
    generateFor g2 gs s b gi ini cond post body := by
  unfold generateFor
  cases hiv : ini.Value with
  | int32 iv =>
    cases hcv : cond.RightValue with
    | int32 cv =>
      simp only []
      rw [genBodyNodes_gen_indep g1 g2 gs body _ _ gi h]
    | nil => rfl
    | str sv => rfl
  | nil => rfl
  | str sv => rfl

/-- Function compilation emits the same code under any two
temporary-name streams when its body is add-free. -/
theorem genFunctionNode_gen_indep (g1 g2 : Nat → String) (gs : GlobalScope)
    (ms : Scope) (gi : Nat) (nm : String) (ps : List Parameter) (body : List Node)
    (h : body.all bodyNoAdd = true) :
    genFunctionNode g1 gs ms gi nm ps body = genFunctionNode g2 gs ms gi nm ps body := by
  simp only [genFunctionNode]
  rw [genBodyNodes_gen_indep g1 g2 gs body _ _ gi h]

/-- The top-level loop emits the same code under any two
temporary-name streams when every statement is add-free. -/
theorem genNodes_gen_indep (g1 g2 : Nat → String) (gs : GlobalScope) :
    ∀ (nodes : List Node) (s : Scope) (b : Builder) (gi : Nat) (fns : List IRFunction),
      nodes.all noAddTop = true →
      genNodes g1 gs nodes s b gi fns = genNodes g2 gs nodes s b gi fns := by
  intro nodes
  induction nodes with
  | nil => intro s b gi fns _; rfl
  | cons n rest ih =>
    intro s b gi fns h
    simp only [List.all_cons, Bool.and_eq_true] at h
    obtain ⟨hn, hrest⟩ := h
    match n with
    | .addOperationNode op => simp [noAddTop] at hn
    | .letNode i v =>
      simp only [genNodes]
      cases generateLet s b i v with
      | ok p => exact ih p.1 p.2 gi fns hrest
      | err m => rfl
      | panic => rfl
      | fuelOut => rfl
    | .callerNode fn ps po ao =>
      have hpo : po = false := by simp [noAddTop] at hn; exact hn
      subst hpo
      simp only [genNodes]
      have hc : generateCaller g1 gs s b gi fn ps false ao =
          generateCaller g2 gs s b gi fn ps false ao := rfl
      rw [hc]
      cases generateCaller g2 gs s b gi fn ps false ao with
      | ok p => exact ih p.1 p.2.1 p.2.2 fns hrest
      | err m => rfl
      | panic => rfl
      | fuelOut => rfl
    | .whileNode c bd => simp only [genNodes]; exact ih s b gi fns hrest
    | .functionNode nm psx bd =>
      have hb : bd.all bodyNoAdd = true := by simpa [noAddTop] using hn
      simp only [genNodes]
      rw [genFunctionNode_gen_indep g1 g2 gs s gi nm psx bd hb]
      cases genFunctionNode g2 gs s gi nm psx bd with
      | ok p => exact ih p.1 b p.2.1 (fns ++ [p.2.2]) hrest
      | err m => rfl
      | panic => rfl
      | fuelOut => rfl
    | .forNode i c p bd =>
      have hb : bd.all bodyNoAdd = true := by simpa [noAddTop] using hn
      simp only [genNodes]
      rw [generateFor_gen_indep g1 g2 gs s b gi i c p bd hb]
      cases generateFor g2 gs s b gi i c p bd with
      | ok q => exact ih q.1 q.2.1 q.2.2 fns hrest
      | err m => rfl
      | panic => rfl
      | fuelOut => rfl

/-! ## Claims -/

/-- C1: for the input `for i := 0; i < 10; i++ { printf(i) }`, the
full pipeline produces a module whose entry routine stores 0 into the
counter slot `i` and branches to a loop block that loads the counter,
calls printf with it, increments it, stores it back, and branches back
to the loop while the updated counter satisfies the loop's `< 10`
comparison, followed by a terminal `end` block that returns.  (The
for-aware tokenizer and the for-lowering are spec-modelled; see
`Tokenize` and `generateFor`.) -/
theorem for_pipeline_lowering :
    ∀ gen : Nat → String,
      Compile 100 gen "for i := 0; i < 10; i++ { printf(i) }" =
      .ok { name := "main", declares := ["printf"],
            globals := [("format_string", "%d\n")],
            functions := [],
            main := { name := "main", nparams := 0,
                      blocks :=
                        [("entry",
                          [.alloca (.reg "i") 4,
                           .store (.constInt 0) (.reg "i"),
                           .br "loop"]),
                         ("loop",
                          [.gep (.reg "format") "format_string",
                           .load (.reg "iValue") (.reg "i"),
                           .call (.tmp 0) "printf" [.reg "format", .reg "iValue"],
                           .load (.reg "iVal") (.reg "i"),
                           .add (.reg "updatedCounter") (.reg "iVal") (.constInt 1),
                           .store (.reg "updatedCounter") (.reg "i"),
                           .icmp (.reg "loopCond") "slt" (.reg "updatedCounter") (.constInt 10),
                           .condBr (.reg "loopCond") "loop" "end"]),
                         ("end", [.ret (.constInt 0)])] } } := by
  intro gen; rfl

/-- C2: the claim says `Parse` terminates on every finite token
sequence, the index advancing by one past unrecognized lookahead.  In
fact, when an identifier is followed by a token that is neither an
opening parenthesis nor a plus, the identifier case of `parseNodes`
advances nothing and the loop re-runs in the same state forever: on
the two-token sequence `identifier "a", identifier "b"` every fuel
amount is exhausted, i.e. the Go loop does not terminate. -/
theorem parse_stuck_identifier_diverges :
    ∀ fuel : Nat,
      Parse fuel [⟨.TokenIdentifierType, "a"⟩, ⟨.TokenIdentifierType, "b"⟩] = .fuelOut := by
  have key : ∀ fuel : Nat,
      parseNodes fuel [⟨.TokenIdentifierType, "a"⟩, ⟨.TokenIdentifierType, "b"⟩]
        0 (-1) [] = .fuelOut := by
    intro fuel
    induction fuel with
    | zero => rfl
    | succ f ih =>
      have step :
          parseNodes (f + 1) [⟨.TokenIdentifierType, "a"⟩, ⟨.TokenIdentifierType, "b"⟩]
            0 (-1) [] =
          parseNodes f [⟨.TokenIdentifierType, "a"⟩, ⟨.TokenIdentifierType, "b"⟩]
            0 (-1) [] := rfl
      rw [step, ih]
  intro fuel
  simp only [Parse, key]

/-- C3: the claim says every token access is bounds-checked and early
end of input yields a positional ParseError.  In fact `parseLet` reads
the literal after `let x =` and `parseWhile` reads the condition after
`while (` without any bounds check: both truncated inputs hit an
out-of-range index (a Go runtime panic), not a ParseError. -/
theorem parse_truncated_input_panics :
    Parse 100 [⟨.TokenLetType, ""⟩, ⟨.TokenIdentifierType, "x"⟩, ⟨.TokenEqualsType, ""⟩]
      = .panic ∧
    Parse 100 [⟨.TokenWhileType, ""⟩, ⟨.TokenOpenParenthesisType, ""⟩] = .panic :=
  ⟨rfl, rfl⟩

/-- C4: for the input `printf(42 + 42)`, the pipeline produces a
module whose entry routine adds the constants 42 and 42, stores the
result into a fresh temporary slot (named by the generator, which
never returns an empty string), loads it, and calls printf with the
format-string pointer and the loaded value.  (The `+`-aware tokenizer
is spec-modelled; see `Tokenize`.) -/
theorem printf_add_pipeline_lowering :
    ∀ gen : Nat → String, gen 0 ≠ "" →
      Compile 100 gen "printf(42 + 42)" =
      .ok { name := "main", declares := ["printf"],
            globals := [("format_string", "%d\n")],
            functions := [],
            main := { name := "main", nparams := 0,
                      blocks := [("entry",
                        [.add (.tmp 0) (.constInt 42) (.constInt 42),
                         .alloca (.reg (gen 0)) 4,
                         .store (.tmp 0) (.reg (gen 0)),
                         .gep (.reg "format") "format_string",
                         .load (.tmp 1) (.reg (gen 0)),
                         .call (.tmp 2) "printf" [.reg "format", .tmp 1],
                         .ret (.constInt 0)])] } } := by
  intro gen h
  have hparse : Parse 100 (Tokenize "printf(42 + 42)") =
      .ok [.callerNode "printf" [] true (some ⟨.int32 42, .int32 42⟩)] := rfl
  simp only [Compile, hparse]
  simp [GenerateLLVMIR, genNodes, generateCaller, generateAdd, generateCallerRest,
        Builder.createAlloca, Builder.createAdd, Builder.createStore, Builder.createLoad,
        Builder.createGEP, Builder.createCall, Builder.newDst, Builder.emit, Builder.finish,
        newBuilder, newScope, initialGlobalScope, lookupMap, h]

/-- C4 witness: the pipeline theorem instantiated at a concrete
generator stream. -/
theorem printf_add_pipeline_lowering_witness :
    ((fun _ : Nat => "u0") 0 ≠ "") ∧
    Compile 100 (fun _ => "u0") "printf(42 + 42)" =
      .ok { name := "main", declares := ["printf"],
            globals := [("format_string", "%d\n")],
            functions := [],
            main := { name := "main", nparams := 0,
                      blocks := [("entry",
                        [.add (.tmp 0) (.constInt 42) (.constInt 42),
                         .alloca (.reg "u0") 4,
                         .store (.tmp 0) (.reg "u0"),
                         .gep (.reg "format") "format_string",
                         .load (.tmp 1) (.reg "u0"),
                         .call (.tmp 2) "printf" [.reg "format", .tmp 1],
                         .ret (.constInt 0)])] } } :=
  ⟨by decide, printf_add_pipeline_lowering (fun _ => "u0") (by decide)⟩

/-- C5: the claim says a well-formed `while ( condition ) { body }`
produces a `WhileNode` whose condition is the token between the
parentheses.  In fact `parseWhile` reads the condition from
`tokens[index+2]` AFTER `index` has been advanced to the opening
parenthesis (the closing parenthesis, whose text is empty), and the
body parser invoked with enclosing construct `-1` consumes the closing
brace and every following token, so the final brace check always
fails: on the tokens of `while ( x ) { }`, `Parse` returns the error
below instead of any `WhileNode`. -/
theorem parse_while_always_fails :
    Parse 100 [⟨.TokenWhileType, ""⟩, ⟨.TokenOpenParenthesisType, ""⟩,
      ⟨.TokenIdentifierType, "x"⟩, ⟨.TokenCloseParenthesisType, ""⟩,
      ⟨.TokenOpenCurlyBracketType, ""⟩, ⟨.TokenCloseCurlyBracketType, ""⟩] =
    .err "expected '\x7d' after while body at position 6" := rfl

/-- C6: the claim says a call from one function body to a previously
declared function resolves through the global scope and succeeds.  In
fact declared functions are registered in the ENTRY routine's scope
(`mainFunctionScope.Callers`) while a function body is generated with
a fresh scope whose caller map is empty, so `g()` inside `f` fails
with `caller not found in scope: g`. -/
theorem function_caller_lookup_fails :
    ∀ gen : Nat → String,
      Compile 100 gen "function g() { } function f() { g() }" =
      .err "caller not found in scope: g" := by
  intro gen; rfl

/-- C7 counterexample: the pipeline's IR text depends on the
temporary-name stream (in the source, unseeded `uuid.New()`): two
different streams give different text for `printf(42 + 42)`. -/
theorem pipeline_text_depends_on_name_generator :
    CompileText 100 (fun _ => "a") "printf(42 + 42)" ≠
    CompileText 100 (fun _ => "b") "printf(42 + 42)" := by decide

/-- C7 amended: the pipeline is a pure function of the source text and
the temporary-name stream; its text is independent of the stream
exactly when the parsed program creates no addition temporaries (no
top-level additions and no addition-calls). -/
theorem pipeline_gen_independent_without_additions
    (fuel : Nat) (src : String) (g1 g2 : Nat → String)
    (h : ∀ nodes, Parse fuel (Tokenize src) = .ok nodes → nodes.all noAddTop = true) :
    CompileText fuel g1 src = CompileText fuel g2 src := by
  unfold CompileText Compile
  cases hp : Parse fuel (Tokenize src) with
  | ok nodes =>
    have hall := h nodes hp
    have hgen := genNodes_gen_indep g1 g2 initialGlobalScope nodes newScope newBuilder 0 [] hall
    simp only [GenerateLLVMIR, hgen]
  | err m => rfl
  | panic => rfl
  | fuelOut => rfl

/-- C7 amended witness: for `printf(42)` (no addition) two different
streams give identical text. -/
theorem pipeline_gen_independent_witness :
    (∀ nodes, Parse 100 (Tokenize "printf(42)") = .ok nodes →
      nodes.all noAddTop = true) ∧
    CompileText 100 (fun _ => "a") "printf(42)" =
      CompileText 100 (fun _ => "b") "printf(42)" := by
  have hdis : ∀ nodes, Parse 100 (Tokenize "printf(42)") = .ok nodes →
      nodes.all noAddTop = true := by
    intro nodes hp
    have hp0 : Parse 100 (Tokenize "printf(42)") =
        .ok [.callerNode "printf" [⟨"42", .Integer32Type, .int32 42⟩] false none] := rfl
    rw [hp0] at hp
    injection hp with h2
    subst h2
    decide
  exact ⟨hdis,
    pipeline_gen_independent_without_additions 100 "printf(42)" (fun _ => "a") (fun _ => "b") hdis⟩

/-- C8: the lexer is total and raises no errors: every input string
tokenizes to some token list.  (Spec-modelled tokenizer; the
checked-in snapshots are likewise error-free by their Go type.) -/
theorem tokenize_total :
    ∀ input : String, ∃ tokens : List Token, Tokenize input = tokens :=
  fun input => ⟨Tokenize input, rfl⟩

/-- C9: the empty source string compiles to a module containing
exactly the printf declaration, the format-string global, and an entry
routine that immediately returns — and nothing else. -/
theorem empty_source_module :
    ∀ gen : Nat → String,
      Compile 100 gen "" =
      .ok { name := "main", declares := ["printf"],
            globals := [("format_string", "%d\n")],
            functions := [],
            main := { name := "main", nparams := 0,
                      blocks := [("entry", [.ret (.constInt 0)])] } } := by
  intro gen; rfl

/-- C10: a printf call that is not an addition-call and whose first
argument's identifier is bound neither as a local variable nor as an
incoming argument emits only the format-string GEP — no call
instruction — and returns success: `generateCaller` leaves the scope
and name counter untouched and appends exactly one gep to the builder. -/
theorem printf_unbound_argument_drops_call
    (gen : Nat → String) (gs : GlobalScope) (scope : Scope) (b : Builder)
    (genIdx : Nat) (Parameters : List Parameter) (p : Parameter) (rest : List Parameter)
    (hps : Parameters = p :: rest)
    (hfmt : (lookupMap gs.Globals "format_string").isSome = true)
    (hv : lookupMap scope.Variables p.Identifier = none)
    (ha : lookupMap scope.Arguments p.Identifier = none) :
    generateCaller gen gs scope b genIdx "printf" Parameters false none =
      .ok (scope, b.emit (.gep (.reg "format") "format_string"), genIdx) := by
  subst hps
  obtain ⟨v, hv'⟩ := Option.isSome_iff_exists.mp hfmt
  simp [generateCaller, generateCallerRest, hv', hv, ha,
        Builder.createGEP, Builder.newDst]

/-- C10 witness: `printf(42)` at top level — the literal is recorded
under the identifier `"42"`, bound in neither table of the fresh entry
scope, so the call is silently dropped. -/
theorem printf_unbound_argument_drops_call_witness :
    ([⟨"42", .Integer32Type, .int32 42⟩] : List Parameter) =
      (⟨"42", DataType.Integer32Type, GoVal.int32 42⟩ : Parameter) :: [] ∧
    (lookupMap initialGlobalScope.Globals "format_string").isSome = true ∧
    lookupMap newScope.Variables "42" = none ∧
    lookupMap newScope.Arguments "42" = none ∧
    generateCaller (fun _ => "u0") initialGlobalScope newScope newBuilder 0 "printf"
      [⟨"42", .Integer32Type, .int32 42⟩] false none =
      .ok (newScope, newBuilder.emit (.gep (.reg "format") "format_string"), 0) :=
  ⟨rfl, by decide, by decide, by decide,
    printf_unbound_argument_drops_call (fun _ => "u0") initialGlobalScope newScope
      newBuilder 0 _ ⟨"42", .Integer32Type, .int32 42⟩ [] rfl (by decide) (by decide)
      (by decide)⟩

end Gusty
